import Mathlib

/-!
Shallow embedding of the Editor.js checklist tool (src/index.js) and proofs of
the frozen specification claims.

Modelling conventions:
- A checklist item is the triple (text, checked, level) that the tool keeps per
  item element: `text` mirrors the innerHTML of the contentEditable text field,
  `checked` mirrors the presence of the checked CSS class on the item wrapper,
  `level` mirrors the data-level attribute read through getLevel.
- The live item elements of a wrapper are an ordered list of such triples.
- DOM event context is made explicit: a handler receives the index of the item
  that `closest` resolves (or `none` when the event target is not inside any
  checklist item of this wrapper) together with the caret offset, instead of
  reading ambient focus state.
- A JavaScript TypeError raised by dereferencing null is modelled as
  `Except.error ()`; handlers that cannot throw return plain values.
- Machine integers do not overflow in the source (levels and indices are small
  JS numbers), so levels are modelled as `Int` (tab arithmetic is signed:
  `Math.max(0, oldLevel + delta)`) and indices as `Nat`.
-/

namespace Checklist

/-- One checklist item as the tool keeps it: innerHTML of the text field,
checked flag (the checked CSS class), indentation level (data-level). -/
structure ChecklistItem where
  text : String
  checked : Bool
  level : Int
deriving Repr, DecidableEq

/-- Persisted data shape: `{ items: [...] }`. -/
structure ChecklistData where
  items : List ChecklistItem
deriving Repr, DecidableEq

/-- A persisted item as read from arbitrary saved JSON: each field may be
absent (modelled by `Option`). -/
structure RawItem where
  text : Option String
  checked : Option Bool
  level : Option Int
deriving Repr, DecidableEq

/-- JS `level || 0`: `undefined` (and `0` itself, which is falsy) give `0`;
any other number passes through. -/
def jsOrZero : Option Int → Int
  | none => 0
  | some v => v

/-- createChecklistItem: builds one item element from persisted fields.
The text field innerHTML is the text when truthy and the empty string
otherwise (absent and empty both give the empty string), the checked class is
added iff `item.checked` is truthy, and setLevel stores `item.level || 0`. -/
def createChecklistItem (item : RawItem) : ChecklistItem :=
  { text := item.text.getD ""
  , checked := item.checked.getD false
  , level := jsOrZero item.level }

/-- render (the load path): when `this.data.items` is absent, one default empty
item is created; otherwise each persisted item is materialized in order.
Note that in JS `!this.data.items` is true only when the field is absent or
null — an empty array is truthy, so the default applies only to absent items. -/
def render (dataItems : Option (List RawItem)) : List ChecklistItem :=
  match dataItems with
  | none => [{ text := "", checked := false, level := 0 }]
  | some items => items.map createChecklistItem

/-- save: map every live item element to `{text, checked, level}` (reading the
current innerHTML, checked class and level), then drop items whose trimmed
text is empty. -/
def save (items : List ChecklistItem) : List ChecklistItem :=
  ((items.map fun itemEl =>
      ChecklistItem.mk itemEl.text itemEl.checked itemEl.level).filter
    fun item => item.text.trim.length != 0)

/-- validate: `!!savedData.items.length`, i.e. true iff the item list is
nonempty. The embedding is a pure function, reflecting that validate only
reads its argument. -/
def validate (savedData : ChecklistData) : Bool :=
  savedData.items.length != 0

/-- JS `Array.prototype.join(sep)`: empty array gives the empty string,
otherwise the elements in order with `sep` between consecutive elements. -/
def joinJS (sep : String) : List String → String
  | [] => ""
  | [s] => s
  | s :: rest => s ++ sep ++ joinJS sep rest

/-- conversionConfig.export: the item texts, joined with the dot-space
separator by Array.join. -/
def conversionExport (data : ChecklistData) : String :=
  joinJS ". " (data.items.map fun item => item.text)

/-- conversionConfig.import: a single unchecked level-0 item holding the whole
string. -/
def conversionImport (s : String) : ChecklistData :=
  { items := [{ text := s, checked := false, level := 0 }] }

/-- updateLevel: `newLevel = Math.max(0, oldLevel + delta)` stored back on the
item. -/
def updateLevel (item : ChecklistItem) (delta : Int) : ChecklistItem :=
  { item with level := max 0 (item.level + delta) }

/-- tab: `updateLevel(event, 1)`. -/
def tab (item : ChecklistItem) : ChecklistItem :=
  updateLevel item 1

/-- shiftTab: `updateLevel(event, -1)`. -/
def shiftTab (item : ChecklistItem) : ChecklistItem :=
  updateLevel item (-1)

/-- The Tab/Shift-Tab handler at wrapper level. `target` is the index of the
item that contains the keydown target (`event.target.parentElement` is that
item wrapper in the normal case); when the target is not inside any item of
this checklist, `event.target.parentElement` is not an item element, so no
item of the model changes (the stray data-level write lands on a non-item
node outside the model). -/
def tabHandler (items : List ChecklistItem) (target : Option (Fin items.length))
    (delta : Int) : List ChecklistItem :=
  match target with
  | none => items
  | some i => items.set i.val (updateLevel (items.get i) delta)

/-- Result of an Enter key press, beyond the new item list: `hostFocusTo`
records the host call pair `blocks.insert(); caret.setToBlock(k)` (the block
index the host is asked to focus), `caretToStartOf` records a
`moveCaret(..., true)` to the start of the region of the item at that index. -/
structure EnterResult where
  items : List ChecklistItem
  hostFocusTo : Option Int
  caretToStartOf : Option Nat
deriving Repr, DecidableEq

/-- enterPressed. `caret` is the item index that
`document.activeElement.closest` resolves against the item class, paired with
the caret offset inside the region content, or `none` when the active element
is not inside any item: in that case `getLevel(null)` dereferences null and
throws a TypeError before anything is mutated (`Except.error ()`).

Modelled from the spec: the InlineFragmentSplitter (extractContentAfterCaret /
fragmentToHtml in utils.js, not part of the given sources) produces the
content strictly after the caret and leaves the region holding the content
strictly before it; on the flat text model this is `drop` / `take` at the
caret offset. getHTML (also utils.js) reads the region content, which is the
`text` field itself here. -/
def enterPressed (blockIndex : Int) (items : List ChecklistItem)
    (caret : Option (Fin items.length × Nat)) : Except Unit EnterResult :=
  match caret with
  | none => .error ()
  | some (i, off) =>
    let cur := items.get i
    let itemLevel := cur.level
    if 0 < itemLevel ∧ cur.text.length = 0 then
      .ok ⟨items.set i.val { cur with level := itemLevel - 1 }, none, none⟩
    else if i.val = items.length - 1 ∧ cur.text.length = 0 then
      .ok ⟨items.eraseIdx i.val, some (blockIndex + 1), none⟩
    else
      .ok ⟨(items.set i.val { cur with text := cur.text.take off }).insertIdx
              (i.val + 1)
              { text := cur.text.drop off, checked := false, level := itemLevel }
          , none, some (i.val + 1)⟩

/-- Result of a Backspace: the new item list plus the caret instruction
`moveCaret(prevItemInput, undefined, prevItemChildNodesLength)`; the child
boundary offset is abstracted as the length of the previous region content
before the merge (the flat model has one content unit per character). -/
structure BackspaceResult where
  items : List ChecklistItem
  caretTo : Option (Nat × Nat)
deriving Repr, DecidableEq

/-- backspace. `target` is the item index that `event.target.closest` resolves
(`none` when the target is not inside any item: then `indexOf` gives `-1`,
`prevItem` is `undefined` and the handler returns without doing anything).
`focusOffset` is `window.getSelection().focusOffset`. When the caret is at the
beginning and a previous item exists, the entire content after the caret is
appended to the previous region and the current item is removed.

Modelled from the spec: extractContentAfterCaret (utils.js, not part of the
given sources) at a caret sitting at the start of the region yields the whole
region content. -/
def backspace (items : List ChecklistItem) (target : Option (Fin items.length))
    (focusOffset : Nat) : BackspaceResult :=
  match target with
  | none => ⟨items, none⟩
  | some i =>
    if i.val = 0 then ⟨items, none⟩
    else if focusOffset ≠ 0 then ⟨items, none⟩
    else
      let cur := items.get i
      let prev := items.get ⟨i.val - 1, Nat.lt_of_le_of_lt (Nat.sub_le i.val 1) i.isLt⟩
      ⟨(items.set (i.val - 1) { prev with text := prev.text ++ cur.text }).eraseIdx i.val
      , some (i.val - 1, prev.text.length)⟩

/-- toggleCheckbox. `target` is the item index resolved by
`event.target.closest` paired with whether the click target sits inside the
checkbox container of that item; `none` when the click is not inside any item,
in which case `checkListItem.querySelector` dereferences null and throws a
TypeError (`Except.error ()`). -/
def toggleCheckbox (items : List ChecklistItem)
    (target : Option (Fin items.length × Bool)) : Except Unit (List ChecklistItem) :=
  match target with
  | none => .error ()
  | some (i, inCheckbox) =>
    if inCheckbox then
      .ok (items.set i.val { items.get i with checked := !(items.get i).checked })
    else
      .ok items

/-- getLevel / setLevel storage layer: the level round-trips through the
data-level string attribute. A digit list built with bounded fuel so that the
kernel can evaluate it: the digits of `n` in base 10, most significant first. -/
def natToDigitsF : Nat → Nat → List Char
  | 0, _ => []
  | fuel + 1, n =>
    if n < 10 then [Char.ofNat (48 + n)]
    else natToDigitsF fuel (n / 10) ++ [Char.ofNat (48 + n % 10)]

/-- Decimal digit characters of `n`, most significant first. -/
def natToDigits (n : Nat) : List Char :=
  natToDigitsF (n + 1) n

/-- JS number-to-string coercion for integers (what
`item.dataset.level = level || 0` stores): the decimal representation, with a
leading minus sign for negative values. -/
def intToString (i : Int) : String :=
  if i < 0 then String.mk ('-' :: natToDigits i.natAbs)
  else String.mk (natToDigits i.natAbs)

/-- setLevel: `item.dataset.level = level || 0` stores the coerced string. -/
def setLevelAttr (level : Option Int) : String :=
  intToString (jsOrZero level)

/-- Longest digit run at the front of a character list, with the remainder. -/
def takeDigitsC : List Char → List Char × List Char
  | [] => ([], [])
  | c :: cs =>
    if c.isDigit then
      let p := takeDigitsC cs
      (c :: p.1, p.2)
    else ([], c :: cs)

/-- Value of a digit character run, most significant first. -/
def digitsVal (cs : List Char) : Nat :=
  cs.foldl (fun a c => a * 10 + (c.toNat - 48)) 0

/-- JS `parseInt(s)` (radix 10 path): skip leading whitespace, an optional
sign, then the longest run of decimal digits; `none` models NaN (no digits).
The hexadecimal 0x path of parseInt is not modelled: stored level
attributes are always decimal strings produced by setLevelAttr. -/
def parseIntJS (s : String) : Option Int :=
  match s.data.dropWhile (fun c => c.isWhitespace) with
  | [] => none
  | c :: rest =>
    if c = '-' then
      let p := takeDigitsC rest
      if p.1.isEmpty then none else some (-(digitsVal p.1 : Int))
    else if c = '+' then
      let p := takeDigitsC rest
      if p.1.isEmpty then none else some (digitsVal p.1)
    else
      let p := takeDigitsC (c :: rest)
      if p.1.isEmpty then none else some (digitsVal p.1)

/-- getLevel: `item.dataset.level ? parseInt(item.dataset.level) : 0`. The
attribute is `none` when never set; an absent or empty attribute is falsy and
gives 0. The result is `none` exactly when parseInt gives NaN. -/
def getLevelAttr (attr : Option String) : Option Int :=
  match attr with
  | none => some 0
  | some s => if s = "" then some 0 else parseIntJS s

end Checklist

namespace Checklist

/-- The item list produced by the split branch of enterPressed: the current
item keeps the content strictly before the caret, and the new item holding the
content strictly after the caret is inserted immediately after it. -/
def splitResultItems (items : List ChecklistItem) (i : Fin items.length)
    (off : Nat) : List ChecklistItem :=
  (items.set i.val { items.get i with text := (items.get i).text.take off }).insertIdx
    (i.val + 1)
    { text := (items.get i).text.drop off, checked := false
    , level := (items.get i).level }

/-- The two guarded returns of enterPressed do not fire: the split path runs. -/
lemma enterPressed_split_eq (b : Int) (items : List ChecklistItem)
    (i : Fin items.length) (off : Nat)
    (h1 : ¬(0 < (items.get i).level ∧ (items.get i).text.length = 0))
    (h2 : ¬(i.val = items.length - 1 ∧ (items.get i).text.length = 0)) :
    enterPressed b items (some (i, off)) =
      .ok ⟨(items.set i.val
              { items.get i with text := (items.get i).text.take off }).insertIdx (i.val + 1)
              { text := (items.get i).text.drop off, checked := false
              , level := (items.get i).level }
          , none, some (i.val + 1)⟩ := by
  dsimp only [enterPressed]
  rw [if_neg h1, if_neg h2]

lemma enterPressed_decrement_eq (b : Int) (items : List ChecklistItem)
    (i : Fin items.length) (off : Nat)
    (hlvl : 0 < (items.get i).level) (hempty : (items.get i).text.length = 0) :
    enterPressed b items (some (i, off)) =
      .ok ⟨items.set i.val { items.get i with level := (items.get i).level - 1 }
          , none, none⟩ := by
  dsimp only [enterPressed]
  rw [if_pos ⟨hlvl, hempty⟩]

lemma enterPressed_exit_eq (b : Int) (items : List ChecklistItem)
    (i : Fin items.length) (off : Nat)
    (hlast : i.val = items.length - 1) (hempty : (items.get i).text.length = 0)
    (hlvl : (items.get i).level ≤ 0) :
    enterPressed b items (some (i, off)) =
      .ok ⟨items.eraseIdx i.val, some (b + 1), none⟩ := by
  dsimp only [enterPressed]
  rw [if_neg (by simp only [not_and]; intro h; omega), if_pos ⟨hlast, hempty⟩]

lemma length_splitResultItems (items : List ChecklistItem) (i : Fin items.length)
    (off : Nat) : (splitResultItems items i off).length = items.length + 1 := by
  unfold splitResultItems
  rw [List.length_insertIdx (i.val + 1) _ (by rw [List.length_set]; omega)]
  rw [List.length_set]

lemma getElem?_insertIdx_add_succ {α : Type} (l : List α) (x : α) (n k : Nat)
    (hn : n ≤ l.length) :
    (l.insertIdx n x)[n + k + 1]? = l[n + k]? := by
  by_cases hlt : n + k < l.length
  · rw [List.getElem?_eq_getElem hlt,
      List.getElem?_eq_getElem (by rw [List.length_insertIdx n _ hn]; omega)]
    exact congrArg some (List.getElem_insertIdx_add_succ l x n k hlt)
  · have hlen : (l.insertIdx n x).length = l.length + 1 :=
      List.length_insertIdx n l hn
    rw [List.getElem?_eq_none (by omega), List.getElem?_eq_none (by omega)]

/-- C1: an Enter press not handled by the empty-item rules splits at the
caret: the current item keeps the text before the caret, exactly one new item
(text strictly after the caret, unchecked, same level) is inserted immediately
after it, and all other items keep their place and values. -/
theorem enter_split_inserts_after (b : Int) (items : List ChecklistItem)
    (i : Fin items.length) (off : Nat)
    (h : (items.get i).text.length ≠ 0 ∨
      ((items.get i).level = 0 ∧ i.val ≠ items.length - 1)) :
    enterPressed b items (some (i, off)) =
      .ok ⟨splitResultItems items i off, none, some (i.val + 1)⟩ ∧
    (splitResultItems items i off).length = items.length + 1 ∧
    (splitResultItems items i off)[i.val + 1]? =
      some { text := (items.get i).text.drop off, checked := false
           , level := (items.get i).level } ∧
    (splitResultItems items i off)[i.val]? =
      some { items.get i with text := (items.get i).text.take off } ∧
    (∀ j, j < i.val → (splitResultItems items i off)[j]? = items[j]?) ∧
    (∀ j, i.val < j → j < items.length →
      (splitResultItems items i off)[j + 1]? = items[j]?) := by
  have hg1 : ¬(0 < (items.get i).level ∧ (items.get i).text.length = 0) := by
    rcases h with h | ⟨h0, _⟩
    · exact fun hc => h hc.2
    · intro hc; omega
  have hg2 : ¬(i.val = items.length - 1 ∧ (items.get i).text.length = 0) := by
    rcases h with h | ⟨_, hne⟩
    · exact fun hc => h hc.2
    · exact fun hc => hne hc.1
  have hset : (items.set i.val
      { items.get i with text := (items.get i).text.take off }).length
      = items.length := List.length_set ..
  refine ⟨enterPressed_split_eq b items i off hg1 hg2,
    length_splitResultItems items i off, ?_, ?_, ?_, ?_⟩
  · rw [List.getElem?_eq_getElem (by rw [length_splitResultItems]; omega)]
    unfold splitResultItems
    rw [List.getElem_insertIdx_self _ _ _ (by omega)]
  · rw [List.getElem?_eq_getElem (by rw [length_splitResultItems]; omega)]
    unfold splitResultItems
    rw [List.getElem_insertIdx_of_lt _ _ _ _ (by omega) (by omega)]
    exact congrArg some (List.getElem_set_self (by omega))
  · intro j hj
    rw [List.getElem?_eq_getElem (by rw [length_splitResultItems]; omega)]
    unfold splitResultItems
    rw [List.getElem_insertIdx_of_lt _ _ _ _ (by omega) (by omega)]
    rw [List.getElem?_eq_getElem (by omega)]
    exact congrArg some (List.getElem_set_ne (by omega) _)
  · intro j hij hjlen
    unfold splitResultItems
    rw [show j + 1 = (i.val + 1) + (j - i.val - 1) + 1 from by omega]
    rw [getElem?_insertIdx_add_succ _ _ _ _ (by omega)]
    rw [show (i.val + 1) + (j - i.val - 1) = j from by omega]
    rw [List.getElem?_set, if_neg (by omega)]

/-- Witness for `enter_split_inserts_after`: the basic split scenario — item
"buy milk" with caret after "buy" yields ["buy", " milk"], the new item
unchecked at the same level, caret sent to the start of the new item. -/
theorem enter_split_inserts_after_witness :
    ("buy milk".length ≠ 0 ∨ ((0:Int) = 0 ∧ (0:Nat) ≠ 0)) ∧
    enterPressed 0 [ChecklistItem.mk "buy milk" false 0] (some (⟨0, by decide⟩, 3)) =
      .ok ⟨[ChecklistItem.mk "buy" false 0, ChecklistItem.mk " milk" false 0]
          , none, some 1⟩ := by
  refine ⟨Or.inl (by decide), ?_⟩
  rw [(enter_split_inserts_after 0 [ChecklistItem.mk "buy milk" false 0]
      ⟨0, by decide⟩ 3 (Or.inl (by decide))).1]
  rfl

/-- C2: Enter on an indented empty item (level > 0, empty text) only
decrements the level by exactly one: nothing is inserted or removed, every
other item is untouched, and no host exit is signalled. The statement has no
hypothesis on the position of the item, so the rule fires even on the last
item of the model: it takes precedence over the empty-last-item exit. -/
theorem enter_decrements_level_of_indented_empty (b : Int)
    (items : List ChecklistItem) (i : Fin items.length) (off : Nat)
    (hlvl : 0 < (items.get i).level) (hempty : (items.get i).text.length = 0) :
    enterPressed b items (some (i, off)) =
      .ok ⟨items.set i.val { items.get i with level := (items.get i).level - 1 }
          , none, none⟩ ∧
    (items.set i.val
      { items.get i with level := (items.get i).level - 1 }).length = items.length ∧
    (items.set i.val
      { items.get i with level := (items.get i).level - 1 })[i.val]? =
      some { items.get i with level := (items.get i).level - 1 } ∧
    ∀ j, j ≠ i.val →
      (items.set i.val
        { items.get i with level := (items.get i).level - 1 })[j]? = items[j]? := by
  refine ⟨enterPressed_decrement_eq b items i off hlvl hempty, List.length_set .., ?_, ?_⟩
  · rw [List.getElem?_eq_getElem (by rw [List.length_set]; omega)]
    exact congrArg some (List.getElem_set_self (by rw [List.length_set]; omega))
  · intro j hj
    rw [List.getElem?_set, if_neg (fun hc => hj hc.symm)]

/-- Witness for `enter_decrements_level_of_indented_empty`: a sole (hence
last) empty item at level 2 drops to level 1, no item is created and no exit
is signalled, showing the precedence over the empty-last-item rule. -/
theorem enter_decrements_level_witness :
    (0:Int) < 2 ∧ ("" : String).length = 0 ∧
    enterPressed 0 [ChecklistItem.mk "" true 2] (some (⟨0, by decide⟩, 0)) =
      .ok ⟨[ChecklistItem.mk "" true 1], none, none⟩ := by
  refine ⟨by decide, rfl, ?_⟩
  rw [(enter_decrements_level_of_indented_empty 0 [ChecklistItem.mk "" true 2]
      ⟨0, by decide⟩ 0 (by decide) rfl).1]
  rfl

/-- C3: Enter on the last item when it is empty (and at level 0, so the
decrement rule does not fire) removes that item, creates nothing, and signals
the host to insert a new block right after this one and focus it
(`blocks.insert(); caret.setToBlock(blockIndex + 1)`). The surviving model is
exactly the original list without its last element. -/
theorem enter_exits_on_empty_last (b : Int) (items : List ChecklistItem)
    (i : Fin items.length) (off : Nat)
    (hlast : i.val = items.length - 1) (hempty : (items.get i).text.length = 0)
    (hlvl : (items.get i).level = 0) :
    enterPressed b items (some (i, off)) =
      .ok ⟨items.eraseIdx i.val, some (b + 1), none⟩ ∧
    items.eraseIdx i.val = items.take i.val ∧
    (items.eraseIdx i.val).length = items.length - 1 := by
  refine ⟨enterPressed_exit_eq b items i off hlast hempty (by omega), ?_, ?_⟩
  · rw [List.eraseIdx_eq_take_drop_succ]
    have hd : items.drop (i.val + 1) = [] := List.drop_eq_nil_of_le (by omega)
    rw [hd, List.append_nil]
  · rw [List.length_eraseIdx, if_pos i.isLt]

/-- Witness for `enter_exits_on_empty_last`: the spec scenario — model
[{text:"a"}, {text:""}], Enter in the empty last item at block index 5 gives
model [{text:"a"}] and the host is asked to insert and focus block 6. -/
theorem enter_exits_on_empty_last_witness :
    (1:Nat) = 2 - 1 ∧ ("" : String).length = 0 ∧ (0:Int) = 0 ∧
    enterPressed 5 [ChecklistItem.mk "a" false 0, ChecklistItem.mk "" false 0]
        (some (⟨1, by decide⟩, 0)) =
      .ok ⟨[ChecklistItem.mk "a" false 0], some 6, none⟩ := by
  refine ⟨rfl, rfl, rfl, ?_⟩
  rw [(enter_exits_on_empty_last 5
      [ChecklistItem.mk "a" false 0, ChecklistItem.mk "" false 0]
      ⟨1, by decide⟩ 0 rfl rfl rfl).1]
  rfl

/-- C4 as stated is false: with an event target outside any checklist item,
the Enter handler dereferences null in getLevel and the checkbox-click handler
dereferences null in querySelector, so both throw a TypeError instead of
silently no-opping. -/
theorem handlers_outside_item_counterexample :
    enterPressed 0 [ChecklistItem.mk "a" false 0] none = .error () ∧
    toggleCheckbox [ChecklistItem.mk "a" false 0] none = .error () :=
  ⟨rfl, rfl⟩

/-- C4 amended: with an event target outside any checklist item, the Backspace
handler is a silent no-op and the Tab handler changes no item of the model,
while the Enter and checkbox-click handlers throw a TypeError before touching
the model; in every case the model is not mutated. -/
theorem handlers_outside_item_behavior (items : List ChecklistItem) (b : Int)
    (off : Nat) (delta : Int) :
    backspace items none off = ⟨items, none⟩ ∧
    tabHandler items none delta = items ∧
    enterPressed b items none = .error () ∧
    toggleCheckbox items none = .error () :=
  ⟨rfl, rfl, rfl, rfl⟩

/-- C5: save never emits an item whose trimmed text is empty, and the emitted
items are a sublist of the live model: same relative order, same text, checked
and level values. -/
theorem save_filters_empty_items (items : List ChecklistItem) :
    (∀ item ∈ save items, item.text.trim ≠ "") ∧ (save items).Sublist items := by
  constructor
  · intro item hmem
    have h := (List.mem_filter.mp hmem).2
    have h2 : item.text.trim.length ≠ 0 := by simpa using h
    intro he
    apply h2
    rw [he]
    rfl
  · have hmap : (items.map fun itemEl =>
        ChecklistItem.mk itemEl.text itemEl.checked itemEl.level) = items :=
      List.map_id'' (fun it => rfl) items
    unfold save
    rw [hmap]
    exact List.filter_sublist items

/-- C6: rendering with no persisted items yields exactly the single default
item; rendering persisted items materializes them elementwise in the given
order, and an item with all fields present keeps its values. -/
theorem render_default_and_materializes :
    render none = [ChecklistItem.mk "" false 0] ∧
    (∀ rawItems : List RawItem,
      (render (some rawItems)).length = rawItems.length ∧
      ∀ j : Nat, (render (some rawItems))[j]? =
        (rawItems[j]?).map createChecklistItem) ∧
    ∀ (t : String) (c : Bool) (l : Int),
      createChecklistItem ⟨some t, some c, some l⟩ = ⟨t, c, l⟩ := by
  refine ⟨rfl, fun raws => ⟨by simp [render], fun j => ?_⟩, fun t c l => rfl⟩
  simp [render, List.getElem?_map]

/-- C8: validate returns false exactly on an empty item sequence and true
exactly on a nonempty one. The embedding of validate is a pure function of
the saved data, reflecting that it only reads its input. -/
theorem validate_false_iff_no_items (savedData : ChecklistData) :
    (validate savedData = false ↔ savedData.items = []) ∧
    (validate savedData = true ↔ savedData.items ≠ []) := by
  obtain ⟨items⟩ := savedData
  cases items <;> simp [validate]

lemma intercalate_go_eq_joinJS (sep : String) :
    ∀ (l : List String) (acc : String),
      String.intercalate.go acc sep l = joinJS sep (acc :: l) := by
  intro l
  induction l with
  | nil => intro acc; rfl
  | cons b bs ih =>
    intro acc
    rw [show String.intercalate.go acc sep (b :: bs) =
        String.intercalate.go (acc ++ sep ++ b) sep bs from rfl, ih]
    cases bs with
    | nil => rfl
    | cons c cs => simp [joinJS, String.append_assoc]

/-- joinJS (the JS Array.join) agrees with the library intercalate. -/
lemma joinJS_eq_intercalate (sep : String) (l : List String) :
    joinJS sep l = String.intercalate sep l := by
  cases l with
  | nil => rfl
  | cons a as =>
    rw [show String.intercalate sep (a :: as) =
      String.intercalate.go a sep as from rfl, intercalate_go_eq_joinJS]

/-- C9: the plain-text export is the item texts in model order joined by the
two-character separator, unaffected by checked flags and levels; in particular
texts "a", "b" export to "a. b". -/
theorem export_joins_texts (items : List ChecklistItem)
    (f : ChecklistItem → Bool) (g : ChecklistItem → Int)
    (c1 c2 : Bool) (l1 l2 : Int) :
    conversionExport ⟨items⟩ =
      String.intercalate ". " (items.map fun item => item.text) ∧
    conversionExport
        ⟨items.map fun item => ChecklistItem.mk item.text (f item) (g item)⟩ =
      conversionExport ⟨items⟩ ∧
    conversionExport ⟨[ChecklistItem.mk "a" c1 l1, ChecklistItem.mk "b" c2 l2]⟩ =
      "a. b" := by
  refine ⟨joinJS_eq_intercalate _ _, ?_, rfl⟩
  unfold conversionExport
  rw [List.map_map]
  rfl

lemma getElem?_splitResultItems_new (items : List ChecklistItem)
    (i : Fin items.length) (off : Nat) :
    (splitResultItems items i off)[i.val + 1]? =
      some { text := (items.get i).text.drop off, checked := false
           , level := (items.get i).level } := by
  rw [List.getElem?_eq_getElem (by rw [length_splitResultItems]; omega)]
  unfold splitResultItems
  rw [List.getElem_insertIdx_self _ _ _ (by rw [List.length_set]; omega)]

/-- C7: levels never go negative — updateLevel clamps at 0 for any delta; Tab
adds exactly 1 to a non-negative level (no upper bound); Shift-Tab subtracts 1
floored at 0, so level 0 stays 0; plain-text import creates level 0; and an
Enter split gives the new item exactly the level of its originating item. -/
theorem level_discipline :
    (∀ (item : ChecklistItem) (delta : Int), 0 ≤ (updateLevel item delta).level) ∧
    (∀ item : ChecklistItem, 0 ≤ item.level → (tab item).level = item.level + 1) ∧
    (∀ item : ChecklistItem, (shiftTab item).level = max 0 (item.level - 1)) ∧
    (∀ (t : String) (c : Bool),
      (shiftTab { text := t, checked := c, level := 0 }).level = 0) ∧
    (∀ s : String,
      (conversionImport s).items = [{ text := s, checked := false, level := 0 }]) ∧
    (∀ (b : Int) (items : List ChecklistItem) (i : Fin items.length) (off : Nat),
      (items.get i).text.length ≠ 0 →
      (enterPressed b items (some (i, off))).map
          (fun r => r.items[i.val + 1]?.map ChecklistItem.level) =
        .ok (some (items.get i).level)) := by
  refine ⟨fun item delta => le_max_left .., fun item h => ?_, fun item => rfl,
    fun t c => rfl, fun s => rfl, fun b items i off hne => ?_⟩
  · show max 0 (item.level + 1) = item.level + 1
    omega
  · rw [enterPressed_split_eq b items i off (fun hc => hne hc.2) (fun hc => hne hc.2)]
    show Except.ok ((splitResultItems items i off)[i.val + 1]?.map ChecklistItem.level) =
      .ok (some (items.get i).level)
    rw [getElem?_splitResultItems_new]
    rfl

/-- Witness for `level_discipline`: Tab on level 3 gives level 4; a split of
"ab" at offset 1 (level 5) creates the new item at level 5. -/
theorem level_discipline_witness :
    (0:Int) ≤ 3 ∧ (tab ⟨"x", false, 3⟩).level = 3 + 1 ∧
    ("ab".length ≠ 0) ∧
    (enterPressed 0 [ChecklistItem.mk "ab" false 5] (some (⟨0, by decide⟩, 1))).map
        (fun r => r.items[1]?.map ChecklistItem.level) = .ok (some 5) := by
  refine ⟨by decide, ?_, by decide, ?_⟩
  · exact level_discipline.2.1 ⟨"x", false, 3⟩ (by decide)
  · exact level_discipline.2.2.2.2.2 0 [ChecklistItem.mk "ab" false 5]
      ⟨0, by decide⟩ 1 (by decide)

lemma digitChar_facts (d : Nat) (h : d < 10) :
    (Char.ofNat (48 + d)).isDigit = true ∧
    (Char.ofNat (48 + d)).isWhitespace = false ∧
    (Char.ofNat (48 + d)).toNat = 48 + d ∧
    Char.ofNat (48 + d) ≠ '-' ∧ Char.ofNat (48 + d) ≠ '+' := by
  interval_cases d <;> exact ⟨by decide, by decide, by decide, by decide, by decide⟩

lemma natToDigitsF_ne_nil (fuel n : Nat) (h : n < fuel) : natToDigitsF fuel n ≠ [] := by
  cases fuel with
  | zero => omega
  | succ fuel =>
    rw [natToDigitsF]
    split
    · simp
    · simp

lemma mem_natToDigitsF (fuel : Nat) :
    ∀ n, n < fuel → ∀ c ∈ natToDigitsF fuel n, ∃ d, d < 10 ∧ c = Char.ofNat (48 + d) := by
  induction fuel with
  | zero => intro n h; omega
  | succ fuel ih =>
    intro n h c hc
    rw [natToDigitsF] at hc
    by_cases h10 : n < 10
    · rw [if_pos h10] at hc
      simp at hc
      exact ⟨n, h10, hc⟩
    · rw [if_neg h10] at hc
      rcases List.mem_append.mp hc with hm | hm
      · exact ih (n / 10) (by omega) c hm
      · simp at hm
        exact ⟨n % 10, by omega, hm⟩

lemma digitsVal_natToDigitsF (fuel : Nat) :
    ∀ n, n < fuel → digitsVal (natToDigitsF fuel n) = n := by
  induction fuel with
  | zero => intro n h; omega
  | succ fuel ih =>
    intro n h
    rw [natToDigitsF]
    by_cases h10 : n < 10
    · rw [if_pos h10]
      show List.foldl _ 0 [Char.ofNat (48 + n)] = n
      rw [List.foldl_cons, List.foldl_nil, (digitChar_facts n h10).2.2.1]
      omega
    · rw [if_neg h10]
      unfold digitsVal
      rw [List.foldl_append]
      have ihv := ih (n / 10) (by omega)
      unfold digitsVal at ihv
      rw [ihv, List.foldl_cons, List.foldl_nil,
        (digitChar_facts (n % 10) (by omega)).2.2.1]
      omega

lemma takeDigitsC_of_all_digits :
    ∀ cs : List Char, (∀ c ∈ cs, c.isDigit = true) → takeDigitsC cs = (cs, []) := by
  intro cs
  induction cs with
  | nil => intro _; rfl
  | cons c cs ih =>
    intro h
    rw [takeDigitsC, if_pos (h c (List.mem_cons_self ..)),
      ih (fun x hx => h x (List.mem_cons_of_mem c hx))]

/-- parseInt reads back exactly the decimal string stored for a non-negative
level. -/
lemma parseIntJS_intToString_of_nonneg (L : Int) (h : 0 ≤ L) :
    parseIntJS (intToString L) = some L := by
  rw [intToString, if_neg (by omega)]
  have hmem := mem_natToDigitsF (L.natAbs + 1) L.natAbs (by omega)
  have hval := digitsVal_natToDigitsF (L.natAbs + 1) L.natAbs (by omega)
  have hne := natToDigitsF_ne_nil (L.natAbs + 1) L.natAbs (by omega)
  obtain ⟨c, cs, hcons⟩ := List.exists_cons_of_ne_nil hne
  obtain ⟨d, hd, hcd⟩ := hmem c (by rw [hcons]; exact List.mem_cons_self ..)
  have hfacts := digitChar_facts d hd
  rw [parseIntJS]
  show (match (natToDigitsF (L.natAbs + 1) L.natAbs).dropWhile
      (fun c => c.isWhitespace) with
    | [] => none
    | c :: rest => _) = some L
  rw [hcons, List.dropWhile_cons]
  rw [hcd, hfacts.2.1]
  simp only [Bool.false_eq_true, if_false]
  rw [if_neg hfacts.2.2.2.1, if_neg hfacts.2.2.2.2]
  have hdig : ∀ x ∈ c :: cs, x.isDigit = true := by
    intro x hx
    obtain ⟨e, he, hxe⟩ := hmem x (by rw [hcons]; exact hx)
    rw [hxe]
    exact (digitChar_facts e he).1
  rw [← hcd]
  rw [takeDigitsC_of_all_digits (c :: cs) hdig]
  simp only [List.isEmpty_cons, if_false]
  rw [← hcons, hval, Int.natAbs_of_nonneg h]
  rfl

/-- C10: the level round-trips through the data-level string attribute: for
every non-negative integer L, reading immediately after setting gives exactly
L back, and setting an absent level stores the string "0". -/
theorem level_attribute_roundtrip :
    (∀ L : Int, 0 ≤ L → getLevelAttr (some (setLevelAttr (some L))) = some L) ∧
    setLevelAttr none = "0" := by
  constructor
  · intro L h
    have hne := natToDigitsF_ne_nil (L.natAbs + 1) L.natAbs (by omega)
    obtain ⟨c, cs, hcons⟩ := List.exists_cons_of_ne_nil hne
    have hsne : setLevelAttr (some L) ≠ "" := by
      intro he
      have h2 := congrArg String.data he
      rw [show (setLevelAttr (some L)).data =
          (intToString L).data from rfl] at h2
      rw [intToString, if_neg (by omega)] at h2
      rw [show (String.mk (natToDigits L.natAbs)).data =
          natToDigits L.natAbs from rfl] at h2
      rw [show natToDigits L.natAbs =
          natToDigitsF (L.natAbs + 1) L.natAbs from rfl, hcons] at h2
      simp at h2
    rw [getLevelAttr, if_neg hsne]
    exact parseIntJS_intToString_of_nonneg L h
  · rfl

/-- Witness for `level_attribute_roundtrip`: setting level 7 stores "7" and
reading gives 7 back. -/
theorem level_attribute_roundtrip_witness :
    (0:Int) ≤ 7 ∧ getLevelAttr (some (setLevelAttr (some 7))) = some 7 :=
  ⟨by decide, level_attribute_roundtrip.1 7 (by decide)⟩

end Checklist
